import Mathlib

/-!
Verification of the `profile` package's Repository orchestration layer
(`pkg/profile/profile_type.go`): the `ProfileType` enumeration with its
textual encoding, request validation, the `mergeServices` merge pass of
`GetServices`, profile ingestion, and the query/export path
(`GetProfiles`, `GetProfile`, `GetProfilesTo`).

Shallow embedding conventions:
* Go strings are Lean `String`; byte payloads are abstracted as `List Nat`.
* `time.Time` is modelled as an integer timeline where the Go zero time is
  the integer `0` (`IsZero` and `Before` are the only operations used).
* Errors are `Except String`: the Go `error` values carry only their
  message prefix (the `%v`-rendered request is omitted).
* A call into the Storage backend is made visible in a function's result
  type: a query function returns `Except String F` where `Except.ok f`
  means "Storage was invoked with argument `f`", and `Except.error e`
  means the operation returned before any Storage call.
-/

set_option autoImplicit false

namespace Profefe

/-! ## ProfileType (`profile_type.go`, part 000) -/

/-- Go `type ProfileType int8`: an 8-bit numeric discriminant.  The
embedding carries the raw discriminant as an `Int`; the named constants
below are the canonical table. -/
structure ProfileType where
  val : Int
deriving DecidableEq, Repr

def UnknownProfile : ProfileType := ⟨0⟩

def CPUProfile : ProfileType := ⟨1⟩

def HeapProfile : ProfileType := ⟨2⟩

def BlockProfile : ProfileType := ⟨3⟩

def MutexProfile : ProfileType := ⟨4⟩

def GoroutineProfile : ProfileType := ⟨5⟩

def OtherProfile : ProfileType := ⟨127⟩

/-- Go `unicode.IsSpace` restricted to the characters `strings.TrimSpace`
can meet here: the Latin-1 white space characters.  (The higher Unicode
space category is abstracted to this list.) -/
def goIsSpace (c : Char) : Bool :=
  c = ' ' || c = '\t' || c = '\n' || c = '\x0b' || c = '\x0c' || c = '\r'
    || c = '\x85' || c = '\xa0'

/-- Go `strings.TrimSpace`: drop leading and trailing white space. -/
def trimSpace (s : String) : String :=
  String.mk (((s.data.dropWhile goIsSpace).reverse.dropWhile goIsSpace).reverse)

/-- Source `func (ptype *ProfileType) FromString(s string) error`: trims
whitespace, matches the canonical string table, defaults to
`UnknownProfile`; always returns a nil error.  The Go function mutates
its receiver and returns `error`; the pure embedding returns the new
value paired with the (always absent) error. -/
def ProfileType.FromString (s : String) : ProfileType × Option String :=
  let s := trimSpace s
  if s = "cpu" then (CPUProfile, none)
  else if s = "heap" then (HeapProfile, none)
  else if s = "block" then (BlockProfile, none)
  else if s = "mutex" then (MutexProfile, none)
  else if s = "goroutine" then (GoroutineProfile, none)
  else if s = "other" then (OtherProfile, none)
  else (UnknownProfile, none)

/-- Source `func (ptype ProfileType) String() string`: the inverse table, with a
decimal rendering of the raw discriminant (`fmt.Sprintf("%d", ptype)`)
as the fallback for values outside the table. -/
def ProfileType.String (ptype : ProfileType) : String :=
  if ptype = UnknownProfile then "unknown"
  else if ptype = CPUProfile then "cpu"
  else if ptype = HeapProfile then "heap"
  else if ptype = BlockProfile then "block"
  else if ptype = MutexProfile then "mutex"
  else if ptype = GoroutineProfile then "goroutine"
  else if ptype = OtherProfile then "other"
  else toString ptype.val

/-- The canonical profile-type string table of the spec. -/
def canonicalTable : List String :=
  ["cpu", "heap", "block", "mutex", "goroutine", "other"]

/-! ## Identity primitives and records

`Labels`, `Token`, `Service` and `Profile` are declared in files of this
package that are not under `src/`; they are modelled from the spec (§3). -/

/-- Modelled from the spec: `Labels` (`pkg/profile/labels.go`, not under
`src/`) is "a set of key/value string pairs"; insertion order is
irrelevant. -/
abbrev Labels := Finset (String × String)

/-- Modelled from the spec: `Labels.Add` "returns the union of two label
sets". -/
def Labels.Add (l₁ l₂ : Labels) : Labels := l₁ ∪ l₂

/-- Modelled from the spec: `Token` (`pkg/profile/token.go`, not under
`src/`) is an opaque identifier whose only required operations are
equality and string round-trip; it is modelled as its string form. -/
abbrev Token := String

/-- Modelled from the spec: `TokenFromString` reconstructs a `Token` from
its string form (string round-trip). -/
def TokenFromString (s : String) : Token := s

/-- Modelled from the spec: `Service` (`pkg/profile/service.go`, not under
`src/`): { Name, BuildID, Token, Labels }. -/
structure Service where
  Name : String
  BuildID : String
  Token : Token
  Labels : Labels
deriving DecidableEq

/-- Modelled from the spec: `NewService` (`pkg/profile/service.go`, not
under `src/`) "derives a Token from (name, buildID, labels)" and builds
the Service record.  The claims do not depend on the token derivation;
it is modelled as the name/buildID pair rendered to a string. -/
def NewService (name buildID : String) (labels : Labels) : Service :=
  { Name := name, BuildID := buildID, Token := name ++ "/" ++ buildID, Labels := labels }

/-- Modelled from the spec: `Profile` (`pkg/profile/profile.go`, not under
`src/`): { Type, Service reference }.  (`Type` is a Lean keyword, so the
field is named `Typ` here and in the request records below.) -/
structure Profile where
  Typ : ProfileType
  Service : Service
deriving DecidableEq

/-- The decoded pprof payload produced by the external codec
(`internal/pprof/profile.Parse`), abstracted as a byte list. -/
abbrev PProf := List Nat

/-- Go `time.Time`, modelled as an integer timeline where the Go zero
time is the integer `0`; `IsZero` and `Before` are the only operations
the source uses. -/
structure TimeT where
  t : Int
deriving DecidableEq, Repr

def TimeT.IsZero (x : TimeT) : Bool := x.t == 0

def TimeT.Before (x y : TimeT) : Bool := decide (x.t < y.t)

/-! ## GetServices and the merge pass (source lines 116-154) -/

structure GetServicesRequest where
  Service : String

structure GetServicesFilter where
  Service : String
deriving DecidableEq

/-- The in-place label absorption `s2.Labels = s2.Labels.Add(s1.Labels)`
(source line 144), applied to the map entry holding the representative
for `s.Name`; entries under other names are untouched. -/
def mergeUpdate (s : Service) (p : String × Service) : String × Service :=
  if p.1 = s.Name then (p.1, { p.2 with Labels := p.2.Labels.Add s.Labels }) else p

/-- One iteration of the first loop of `mergeServices` (source lines
138-145): look up `s.Name` in `servicesSet`; if absent, `s` becomes the
representative for its name; otherwise the representative's labels
absorb `s`'s labels via `Labels.Add`.  The unordered Go map
`servicesSet` is modelled as an association list in first-insertion
order (Go map iteration order is unspecified, and the claims are
order-insensitive). -/
def mergeInsert (m : List (String × Service)) (s : Service) : List (String × Service) :=
  match m.find? (fun p => p.1 = s.Name) with
  | none => m ++ [(s.Name, s)]
  | some _ => m.map (mergeUpdate s)

/-- Embeds `mergeServices` (source lines 132-154): an empty input is returned
unchanged; otherwise the records are folded into the name-keyed set and
the set's values are collected. -/
def mergeServices (services : List Service) : List Service :=
  if services.isEmpty then services
  else (services.foldl mergeInsert []).map Prod.snd

/-- Embeds `Repository.GetServices` (source lines 120-130): delegates to
`storage.GetServices` with a name filter and applies the merge pass to
a successful result. -/
def Repository.GetServices (storage : GetServicesFilter → Except String (List Service))
    (req : GetServicesRequest) : Except String (List Service) :=
  match storage { Service := req.Service } with
  | Except.error e => Except.error e
  | Except.ok services => Except.ok (mergeServices services)

/-- Invariant of the `mergeServices` loop after the records `pre` have
been folded into the map `m`: entries are keyed by their service's name,
keys are distinct, the keys are exactly the names seen in `pre`, each
entry's identity fields come from the first record of `pre` with that
name, and each entry's labels are the union of the labels of all records
of `pre` with that name. -/
def MergeInv (pre : List Service) (m : List (String × Service)) : Prop :=
  (∀ p ∈ m, p.2.Name = p.1)
  ∧ (m.map Prod.fst).Nodup
  ∧ (∀ n : String, n ∈ m.map Prod.fst ↔ n ∈ pre.map Service.Name)
  ∧ (∀ p ∈ m, ∃ s₀, pre.find? (fun s => s.Name = p.1) = some s₀
      ∧ p.2.BuildID = s₀.BuildID ∧ p.2.Token = s₀.Token)
  ∧ (∀ p ∈ m, ∀ kv : String × String,
      kv ∈ p.2.Labels ↔ ∃ s ∈ pre, s.Name = p.1 ∧ kv ∈ s.Labels)

/-- Concrete input for the C1 witness: two registrations of the same
logical service with different build IDs and label facets. -/
def sampleServices : List Service :=
  [{ Name := "svc", BuildID := "b1", Token := "t1", Labels := {("env", "prod")} },
   { Name := "svc", BuildID := "b2", Token := "t2", Labels := {("region", "us")} }]

/-! ## CreateService (source lines 87-114) -/

structure CreateServiceRequest where
  ID : String
  Service : String
  Labels : Labels

/-- Embeds `CreateServiceRequest.Validate` (source lines 93-105).  The Go nil
receiver check has no counterpart for Lean values; error values keep only
their message prefix. -/
def CreateServiceRequest.Validate (req : CreateServiceRequest) : Except String Unit :=
  if req.ID = "" then Except.error "id empty"
  else if req.Service = "" then Except.error "service empty"
  else Except.ok ()

/-- Embeds `Repository.CreateService` (source lines 107-114): builds the Service
via `NewService` and hands it to `storage.CreateService`; on storage
success returns the Token's string form.  The storage call is made
visible as the first component. -/
def Repository.CreateService (req : CreateServiceRequest) : Service × String :=
  let service := NewService req.Service req.ID req.Labels
  (service, service.Token)

/-- Modelled from the spec: the transport layer validates a
`CreateServiceRequest` before invoking `Repository.CreateService` (the
caller wiring `Validate` to the Repository is not under `src/`; spec
§4.2: "violation is a validation failure, not persisted").
`Except.ok s` means `storage.CreateService` was invoked with `s`;
`Except.error` means the request was rejected with no storage call. -/
def createServicePipeline (req : CreateServiceRequest) : Except String Service :=
  match req.Validate with
  | Except.error e => Except.error e
  | Except.ok _ => Except.ok (Repository.CreateService req).1

/-! ## CreateProfile (source lines 156-194) -/

structure CreateProfileRequest where
  ID : String
  Token : String
  Typ : ProfileType

/-- Embeds `CreateProfileRequest.Validate` (source lines 162-177). -/
def CreateProfileRequest.Validate (req : CreateProfileRequest) : Except String Unit :=
  if req.ID = "" then Except.error "id empty"
  else if req.Token = "" then Except.error "token empty"
  else if req.Typ = UnknownProfile then
    Except.error ("unknown profile type " ++ req.Typ.String)
  else Except.ok ()

/-- The `Profile` record `Repository.CreateProfile` builds (source lines
180-186): only `BuildID` and `Token` of the Service reference are set;
the remaining fields keep their zero values. -/
def profileRecord (req : CreateProfileRequest) : Profile :=
  { Typ := req.Typ
    Service := { Name := "", BuildID := req.ID, Token := TokenFromString req.Token, Labels := ∅ } }

/-- Embeds `Repository.CreateProfile` (source lines 179-194): builds the Profile
record, parses the submitted byte stream through the external codec
(`profile.Parse`), and on success hands profile and decoded payload to
`storage.CreateProfile`.  The codec is an external collaborator, so its
outcome on this byte stream is the `parseRes` argument.  `Except.ok`
means `storage.CreateProfile` was invoked with exactly that pair;
`Except.error` means no storage call was made. -/
def Repository.CreateProfile (req : CreateProfileRequest) (parseRes : Except String PProf) :
    Except String (Profile × PProf) :=
  match parseRes with
  | Except.error e => Except.error ("could not parse profile: " ++ e)
  | Except.ok pp => Except.ok (profileRecord req, pp)

/-- Modelled from the spec: the transport layer validates a
`CreateProfileRequest` before `Repository.CreateProfile` runs (the caller
wiring `Validate` to the Repository is not under `src/`; spec §4.3: "any
violation fails validation before any I/O"). -/
def createProfilePipeline (req : CreateProfileRequest) (parseRes : Except String PProf) :
    Except String (Profile × PProf) :=
  match req.Validate with
  | Except.error e => Except.error e
  | Except.ok _ => Repository.CreateProfile req parseRes

/-! ## GetProfiles / GetProfile (source lines 196-266) -/

structure GetProfilesRequest where
  Service : String
  Typ : ProfileType
  From : TimeT
  To : TimeT
  Labels : Labels
  Limit : Int

structure GetProfileFilter where
  Service : String
  Typ : ProfileType
  Labels : Labels
  CreatedAtMin : TimeT
  CreatedAtMax : TimeT
deriving DecidableEq

/-- Embeds `GetProfilesRequest.Validate` (source lines 205-223). -/
def GetProfilesRequest.Validate (req : GetProfilesRequest) : Except String Unit :=
  if req.Service = "" then Except.error "no service"
  else if req.Typ = UnknownProfile then
    Except.error ("unknown profile type " ++ req.Typ.String)
  else if req.From.IsZero || req.To.IsZero then Except.error "createdAt time zero"
  else if req.To.Before req.From then Except.error "createdAt time min after max"
  else Except.ok ()

/-- The `GetProfileFilter` built identically by `Repository.GetProfiles`
(source lines 226-232) and `Repository.GetProfile` (source lines
258-264): `Limit` is not copied into the filter. -/
def profilesFilter (req : GetProfilesRequest) : GetProfileFilter :=
  { Service := req.Service, Typ := req.Typ, Labels := req.Labels,
    CreatedAtMin := req.From, CreatedAtMax := req.To }

/-- Embeds `Repository.GetProfiles` (source lines 225-234): builds the filter
and delegates entirely to `storage.GetProfiles`. -/
def Repository.GetProfiles {α : Type} (storage : GetProfileFilter → α)
    (req : GetProfilesRequest) : α :=
  storage (profilesFilter req)

/-- Embeds `Repository.GetProfile` (source lines 257-266): builds the same
filter and delegates to `storage.GetProfile`. -/
def Repository.GetProfile {α : Type} (storage : GetProfileFilter → α)
    (req : GetProfilesRequest) : α :=
  storage (profilesFilter req)

/-- Modelled from the spec: the transport layer validates a
`GetProfilesRequest` before `Repository.GetProfiles`/`GetProfile` run
(the caller wiring `Validate` to the Repository is not under `src/`;
spec §4.4: "any violation fails validation before querying").
`Except.ok f` means Storage was invoked with filter `f`; `Except.error`
means the request was rejected with no storage call. -/
def getProfilesPipeline (req : GetProfilesRequest) : Except String GetProfileFilter :=
  match req.Validate with
  | Except.error e => Except.error e
  | Except.ok _ => Except.ok (profilesFilter req)

/-! ## GetProfilesTo export (source lines 236-255) -/

/-- Events observable on the export output stream: the local file header
`zw.Create` writes when an entry is opened, the entry's serialized
contents written by the codec's `Write`, and the archive trailer written
by `zw.Close`. -/
inductive ZipEvent where
  | header (name : String)
  | data (d : PProf)
  | trailer
deriving DecidableEq, Repr

/-- One decoded profile of the `GetProfiles` result together with the
outcomes of its two fallible export steps against the destination
stream (both steps belong to external collaborators): `createRes` is the
outcome of `zw.Create` for its entry and `writeRes` the outcome of
`pp.Write`, which on success yields the serialized bytes. -/
structure ExportProfile where
  createRes : Except String Unit
  writeRes : Except String PProf

/-- A profile whose export steps both succeed, serializing to `d`. -/
def okProfile (d : PProf) : ExportProfile :=
  { createRes := Except.ok (), writeRes := Except.ok d }

/-- Go `fmt.Sprintf("%04d", n)` for a natural number: decimal digits,
left-padded with zeros to a minimum width of 4. -/
def pad4 (n : Nat) : String :=
  let s := toString n
  if s.length < 4 then String.mk (List.replicate (4 - s.length) '0') ++ s else s

/-- The zip entry name
`fmt.Sprintf("%s-%s-%04d.prof", req.Service, req.Type, n+1)` (source
line 244); `idx` is the 1-based sequence number `n+1`. -/
def entryName (service : String) (ptype : ProfileType) (idx : Nat) : String :=
  service ++ "-" ++ ptype.String ++ "-" ++ pad4 idx ++ ".prof"

/-- The entry loop of `GetProfilesTo` (source lines 243-252) followed by
`zw.Close()` (line 254): `n` is the 0-based loop index and `acc` the
events already on the output stream; returns the final stream contents
together with the operation's result.  A `zw.Create` failure returns the
wrapped error with nothing further written; a `pp.Write` failure returns
that error after the entry's header; only the empty-remainder exit
writes the trailer. -/
def writeProfilesLoop (service : String) (ptype : ProfileType) :
    Nat → List ExportProfile → List ZipEvent → List ZipEvent × Except String Unit
  | _, [], acc => (acc ++ [ZipEvent.trailer], Except.ok ())
  | n, pp :: rest, acc =>
    match pp.createRes with
    | Except.error e =>
        (acc, Except.error ("could not add file " ++ entryName service ptype (n + 1)
          ++ " to zip: " ++ e))
    | Except.ok _ =>
      match pp.writeRes with
      | Except.error e =>
          (acc ++ [ZipEvent.header (entryName service ptype (n + 1))], Except.error e)
      | Except.ok d =>
          writeProfilesLoop service ptype (n + 1) rest
            (acc ++ [ZipEvent.header (entryName service ptype (n + 1)), ZipEvent.data d])

/-- Embeds `Repository.GetProfilesTo` (source lines 236-255): on a `GetProfiles`
error the error is returned with nothing written; otherwise each
returned profile becomes one zip entry and the archive is closed. -/
def Repository.GetProfilesTo (req : GetProfilesRequest)
    (getRes : Except String (List ExportProfile)) : List ZipEvent × Except String Unit :=
  match getRes with
  | Except.error e => ([], Except.error e)
  | Except.ok pps => writeProfilesLoop req.Service req.Typ 0 pps []

/-- The events the spec prescribes for a run of successfully exported
profiles starting at 0-based index `n`: per profile one header carrying
the 1-based zero-padded sequence number and one data block, in result
order. -/
def specEntries (service : String) (ptype : ProfileType) :
    Nat → List PProf → List ZipEvent
  | _, [] => []
  | n, d :: rest =>
      ZipEvent.header (entryName service ptype (n + 1)) :: ZipEvent.data d ::
        specEntries service ptype (n + 1) rest

/-! ## Lemmas and claim theorems -/

/-- C7: for every profile-type string `s` in the canonical table
`{"cpu", "heap", "block", "mutex", "goroutine", "other"}`, formatting the
result of parsing `s` returns `s` again: `String (FromString s) = s`. -/
theorem C7_parse_format_roundtrip (s : String) (hs : s ∈ canonicalTable) :
    ((ProfileType.FromString s).1).String = s := by
  simp only [canonicalTable, List.mem_cons, List.not_mem_nil, or_false] at hs
  rcases hs with rfl | rfl | rfl | rfl | rfl | rfl <;> decide

theorem C7_parse_format_roundtrip_witness :
    "cpu" ∈ canonicalTable ∧ ((ProfileType.FromString "cpu").1).String = "cpu" :=
  ⟨by decide, C7_parse_format_roundtrip "cpu" (by decide)⟩

/-- C8 counterexample: the string `" cpu"` is not in the canonical table,
yet parsing it does not yield `UnknownProfile` (because `FromString`
trims surrounding whitespace before the table lookup), refuting the
claim that every string outside the table parses to `unknown`. -/
theorem C8_counterexample :
    " cpu" ∉ canonicalTable ∧ (ProfileType.FromString " cpu").1 ≠ UnknownProfile := by
  decide

/-- C8 (amended): for every string whose whitespace-trimmed form is not in
the canonical table (including the empty string), parsing yields the
unknown profile type; and parsing never fails for any input string (the
returned error is always absent). -/
theorem C8_trimmed_nontable_unknown (s : String) :
    (trimSpace s ∉ canonicalTable → (ProfileType.FromString s).1 = UnknownProfile)
    ∧ (ProfileType.FromString s).2 = none := by
  constructor
  · intro h
    simp only [canonicalTable, List.mem_cons, List.not_mem_nil, or_false, not_or] at h
    obtain ⟨h1, h2, h3, h4, h5, h6⟩ := h
    simp [ProfileType.FromString, h1, h2, h3, h4, h5, h6]
  · simp only [ProfileType.FromString]
    split_ifs <;> rfl

theorem C8_trimmed_nontable_unknown_witness :
    trimSpace "" ∉ canonicalTable ∧ (ProfileType.FromString "").1 = UnknownProfile :=
  ⟨by decide, (C8_trimmed_nontable_unknown "").1 (by decide)⟩

/-- C9: for every `ProfileType` numeric value outside the canonical table
(not one of unknown = 0, cpu = 1, heap = 2, block = 3, mutex = 4,
goroutine = 5, other = 127), `String` returns the decimal textual
rendering of the raw discriminant rather than failing. -/
theorem C9_string_fallback_decimal (t : ProfileType)
    (h0 : t ≠ UnknownProfile) (h1 : t ≠ CPUProfile) (h2 : t ≠ HeapProfile)
    (h3 : t ≠ BlockProfile) (h4 : t ≠ MutexProfile) (h5 : t ≠ GoroutineProfile)
    (h7 : t ≠ OtherProfile) :
    t.String = toString t.val := by
  simp [ProfileType.String, h0, h1, h2, h3, h4, h5, h7]

theorem C9_string_fallback_decimal_witness :
    (ProfileType.mk 6).String = toString (6 : Int) :=
  C9_string_fallback_decimal ⟨6⟩ (by decide) (by decide) (by decide) (by decide)
    (by decide) (by decide) (by decide)

theorem mergeInv_start : MergeInv [] [] := by
  unfold MergeInv; simp

theorem mergeUpdate_of_eq {s : Service} {p : String × Service} (h : p.1 = s.Name) :
    mergeUpdate s p = (p.1, { p.2 with Labels := p.2.Labels.Add s.Labels }) := by
  unfold mergeUpdate; rw [if_pos h]

theorem mergeUpdate_of_ne {s : Service} {p : String × Service} (h : ¬p.1 = s.Name) :
    mergeUpdate s p = p := by
  unfold mergeUpdate; rw [if_neg h]

theorem mergeInsert_inv {pre : List Service} {m : List (String × Service)}
    (h : MergeInv pre m) (s : Service) : MergeInv (pre ++ [s]) (mergeInsert m s) := by
  obtain ⟨hname, hnodup, hkeys, hfirst, hlab⟩ := h
  unfold mergeInsert
  cases hfind : m.find? (fun p => p.1 = s.Name) with
  | none =>
    rw [List.find?_eq_none] at hfind
    have hne : ∀ p ∈ m, p.1 ≠ s.Name := by
      intro p hp
      simpa using hfind p hp
    have hsnotin : s.Name ∉ m.map Prod.fst := by
      intro hmem
      obtain ⟨p, hp, hpeq⟩ := List.mem_map.1 hmem
      exact hne p hp hpeq
    have hsnotpre : s.Name ∉ pre.map Service.Name := fun hc => hsnotin ((hkeys s.Name).2 hc)
    have hprefind : pre.find? (fun t => t.Name = s.Name) = none := by
      rw [List.find?_eq_none]
      intro t ht
      simp only [decide_eq_true_eq]
      intro hteq
      exact hsnotpre (List.mem_map.2 ⟨t, ht, hteq⟩)
    refine ⟨?_, ?_, ?_, ?_, ?_⟩
    · intro p hp
      rcases List.mem_append.1 hp with hp | hp
      · exact hname p hp
      · have hps : p = (s.Name, s) := by simpa using hp
        rw [hps]
    · rw [List.map_append, List.nodup_append]
      refine ⟨hnodup, List.nodup_singleton _, ?_⟩
      intro k hk hk2
      have : k = s.Name := by simpa using hk2
      rw [this] at hk
      exact hsnotin hk
    · intro n
      simp only [List.map_append, List.mem_append, List.map_cons, List.map_nil,
        List.mem_singleton]
      rw [hkeys n]
    · intro p hp
      rcases List.mem_append.1 hp with hp | hp
      · obtain ⟨s₀, hs₀, hbid, htok⟩ := hfirst p hp
        exact ⟨s₀, by rw [List.find?_append, hs₀]; rfl, hbid, htok⟩
      · have hps : p = (s.Name, s) := by simpa using hp
        rw [hps]
        refine ⟨s, ?_, rfl, rfl⟩
        show (pre ++ [s]).find? (fun t => t.Name = s.Name) = some s
        rw [List.find?_append, hprefind]
        simp
    · intro p hp kv
      rcases List.mem_append.1 hp with hp | hp
      · rw [hlab p hp kv]
        constructor
        · rintro ⟨t, ht, hteq, hkv⟩
          exact ⟨t, List.mem_append.2 (Or.inl ht), hteq, hkv⟩
        · rintro ⟨t, ht, hteq, hkv⟩
          rcases List.mem_append.1 ht with ht | ht
          · exact ⟨t, ht, hteq, hkv⟩
          · have hts : t = s := by simpa using ht
            rw [hts] at hteq
            exact absurd hteq.symm (hne p hp)
      · have hps : p = (s.Name, s) := by simpa using hp
        rw [hps]
        constructor
        · intro hkv
          exact ⟨s, List.mem_append.2 (Or.inr (by simp)), rfl, hkv⟩
        · rintro ⟨t, ht, hteq, hkv⟩
          rcases List.mem_append.1 ht with ht | ht
          · exact absurd (List.mem_map.2 ⟨t, ht, hteq⟩) hsnotpre
          · have hts : t = s := by simpa using ht
            rw [hts] at hkv
            exact hkv
  | some q =>
    have hq1 : q.1 = s.Name := by simpa using List.find?_some hfind
    have hqmem : q ∈ m := List.mem_of_find?_eq_some hfind
    have hsinkeys : s.Name ∈ m.map Prod.fst := List.mem_map.2 ⟨q, hqmem, hq1⟩
    have hkeysame : (m.map (mergeUpdate s)).map Prod.fst = m.map Prod.fst := by
      rw [List.map_map]
      apply List.map_congr_left
      intro p _
      by_cases hps : p.1 = s.Name
      · simp [Function.comp, mergeUpdate_of_eq hps]
      · simp [Function.comp, mergeUpdate_of_ne hps]
    refine ⟨?_, ?_, ?_, ?_, ?_⟩
    · intro p' hp'
      obtain ⟨p, hp, hpeq⟩ := List.mem_map.1 hp'
      by_cases hps : p.1 = s.Name
      · rw [← hpeq, mergeUpdate_of_eq hps]
        exact hname p hp
      · rw [← hpeq, mergeUpdate_of_ne hps]
        exact hname p hp
    · rw [hkeysame]; exact hnodup
    · intro n
      rw [hkeysame]
      simp only [List.map_append, List.mem_append, List.map_cons, List.map_nil,
        List.mem_singleton]
      rw [hkeys n]
      constructor
      · exact Or.inl
      · rintro (hn | hn)
        · exact hn
        · rw [hn]
          exact (hkeys s.Name).1 hsinkeys
    · intro p' hp'
      obtain ⟨p, hp, hpeq⟩ := List.mem_map.1 hp'
      obtain ⟨s₀, hs₀, hbid, htok⟩ := hfirst p hp
      have hfind' : (pre ++ [s]).find? (fun t => t.Name = p.1) = some s₀ := by
        rw [List.find?_append, hs₀]; rfl
      by_cases hps : p.1 = s.Name
      · rw [← hpeq, mergeUpdate_of_eq hps]
        exact ⟨s₀, hfind', hbid, htok⟩
      · rw [← hpeq, mergeUpdate_of_ne hps]
        exact ⟨s₀, hfind', hbid, htok⟩
    · intro p' hp' kv
      obtain ⟨p, hp, hpeq⟩ := List.mem_map.1 hp'
      by_cases hps : p.1 = s.Name
      · rw [← hpeq, mergeUpdate_of_eq hps]
        show kv ∈ p.2.Labels.Add s.Labels ↔ _
        rw [Labels.Add, Finset.mem_union, hlab p hp kv]
        constructor
        · rintro (⟨t, ht, hteq, hkv⟩ | hkv)
          · exact ⟨t, List.mem_append.2 (Or.inl ht), hteq, hkv⟩
          · exact ⟨s, List.mem_append.2 (Or.inr (by simp)), hps.symm, hkv⟩
        · rintro ⟨t, ht, hteq, hkv⟩
          rcases List.mem_append.1 ht with ht | ht
          · exact Or.inl ⟨t, ht, hteq, hkv⟩
          · have hts : t = s := by simpa using ht
            rw [hts] at hkv
            exact Or.inr hkv
      · rw [← hpeq, mergeUpdate_of_ne hps]
        rw [hlab p hp kv]
        constructor
        · rintro ⟨t, ht, hteq, hkv⟩
          exact ⟨t, List.mem_append.2 (Or.inl ht), hteq, hkv⟩
        · rintro ⟨t, ht, hteq, hkv⟩
          rcases List.mem_append.1 ht with ht | ht
          · exact ⟨t, ht, hteq, hkv⟩
          · have hts : t = s := by simpa using ht
            rw [hts] at hteq
            exact absurd hteq.symm hps

theorem mergeInv_foldl (l : List Service) :
    ∀ (pre : List Service) (m : List (String × Service)), MergeInv pre m →
      MergeInv (pre ++ l) (l.foldl mergeInsert m) := by
  induction l with
  | nil => intro pre m h; simpa using h
  | cons s rest ih =>
    intro pre m h
    have h2 := ih (pre ++ [s]) (mergeInsert m s) (mergeInsert_inv h s)
    simpa [List.append_assoc] using h2

theorem mergeInv_run (services : List Service) :
    MergeInv services (services.foldl mergeInsert []) := by
  simpa using mergeInv_foldl services [] [] mergeInv_start

theorem filter_length_eq_keys {m : List (String × Service)}
    (hname : ∀ p ∈ m, p.2.Name = p.1) (n : String) :
    ((m.map Prod.snd).filter (fun r => r.Name = n)).length
      = ((m.map Prod.fst).filter (fun k => k = n)).length := by
  rw [List.filter_map, List.filter_map, List.length_map, List.length_map]
  apply congrArg
  apply List.filter_congr
  intro p hp
  simp [Function.comp, hname p hp]

theorem nodup_filter_eq_length {l : List String} (h : l.Nodup) (n : String) :
    (l.filter (fun k => k = n)).length = if n ∈ l then 1 else 0 := by
  induction l with
  | nil => simp
  | cons a l ih =>
    rw [List.nodup_cons] at h
    by_cases han : a = n
    · subst han
      rw [List.filter_cons_of_pos (by simp)]
      have hzero : (l.filter (fun k => k = a)).length = 0 := by
        rw [ih h.2]
        simp [h.1]
      simp [hzero]
    · rw [List.filter_cons_of_neg (by simp [han]), ih h.2]
      have hmem : n ∈ a :: l ↔ n ∈ l := by
        constructor
        · intro hx
          rcases List.mem_cons.1 hx with hx | hx
          · exact absurd hx.symm han
          · exact hx
        · exact fun hx => List.mem_cons.2 (Or.inr hx)
      simp [hmem]

theorem foldl_mergeInsert_nodup (l : List Service) :
    ∀ m : List (String × Service),
      (∀ p ∈ m, ∀ t ∈ l, p.1 ≠ t.Name) →
      (l.map Service.Name).Nodup →
      l.foldl mergeInsert m = m ++ l.map (fun s => (s.Name, s)) := by
  induction l with
  | nil => intro m _ _; simp
  | cons s rest ih =>
    intro m hdisj hnodup
    rw [List.map_cons, List.nodup_cons] at hnodup
    have hfind : m.find? (fun p => p.1 = s.Name) = none := by
      rw [List.find?_eq_none]
      intro p hp
      simpa using hdisj p hp s (List.mem_cons_self s rest)
    have hstep : mergeInsert m s = m ++ [(s.Name, s)] := by
      unfold mergeInsert
      rw [hfind]
    have hdisj' : ∀ p ∈ m ++ [(s.Name, s)], ∀ t ∈ rest, p.1 ≠ t.Name := by
      intro p hp t ht
      rcases List.mem_append.1 hp with hp | hp
      · exact hdisj p hp t (List.mem_cons_of_mem s ht)
      · have hps : p = (s.Name, s) := by simpa using hp
        rw [hps]
        intro hc
        exact hnodup.1 (List.mem_map.2 ⟨t, ht, hc.symm⟩)
    rw [List.foldl_cons, hstep, ih (m ++ [(s.Name, s)]) hdisj' hnodup.2]
    simp

/-- C1: for every non-empty list of Service records passed through the
merge pass of `GetServices`, (a) the result contains exactly one record
per distinct name occurring in the input; (b) each result record takes
its identity fields from the first input record with its name (the
representative) and its labels are the set union of all label sets
observed under that name; (c) when all input names are distinct the
records pass through unmodified. -/
theorem C1_merge_services (services : List Service) (hne : services ≠ []) :
    (∀ n : String, ((mergeServices services).filter (fun r => r.Name = n)).length
        = if n ∈ services.map Service.Name then 1 else 0)
    ∧ (∀ r ∈ mergeServices services,
        (∃ s₀, services.find? (fun s => s.Name = r.Name) = some s₀
            ∧ r.BuildID = s₀.BuildID ∧ r.Token = s₀.Token)
        ∧ ∀ kv : String × String,
            kv ∈ r.Labels ↔ ∃ s ∈ services, s.Name = r.Name ∧ kv ∈ s.Labels)
    ∧ ((services.map Service.Name).Nodup → mergeServices services = services) := by
  obtain ⟨hname, hnodup, hkeys, hfirst, hlab⟩ := mergeInv_run services
  have hms : mergeServices services = (services.foldl mergeInsert []).map Prod.snd := by
    cases services with
    | nil => exact absurd rfl hne
    | cons a l => rfl
  refine ⟨?_, ?_, ?_⟩
  · intro n
    rw [hms, filter_length_eq_keys hname n, nodup_filter_eq_length hnodup n]
    simp [hkeys n]
  · intro r hr
    rw [hms] at hr
    obtain ⟨p, hp, hpr⟩ := List.mem_map.1 hr
    have hpname : p.2.Name = p.1 := hname p hp
    constructor
    · obtain ⟨s₀, hs₀, hbid, htok⟩ := hfirst p hp
      refine ⟨s₀, ?_, ?_, ?_⟩
      · simp only [← hpr, hpname]
        exact hs₀
      · simp only [← hpr]
        exact hbid
      · simp only [← hpr]
        exact htok
    · intro kv
      simp only [← hpr, hpname]
      exact hlab p hp kv
  · intro hnd
    have hrun := foldl_mergeInsert_nodup services [] (by simp) hnd
    rw [hms, hrun]
    simp only [List.nil_append, List.map_map]
    have hid : (Prod.snd ∘ fun s : Service => (s.Name, s)) = id := rfl
    rw [hid, List.map_id]

theorem C1_merge_services_witness :
    (∀ n : String, ((mergeServices sampleServices).filter (fun r => r.Name = n)).length
        = if n ∈ sampleServices.map Service.Name then 1 else 0)
    ∧ (∀ r ∈ mergeServices sampleServices,
        (∃ s₀, sampleServices.find? (fun s => s.Name = r.Name) = some s₀
            ∧ r.BuildID = s₀.BuildID ∧ r.Token = s₀.Token)
        ∧ ∀ kv : String × String,
            kv ∈ r.Labels ↔ ∃ s ∈ sampleServices, s.Name = r.Name ∧ kv ∈ s.Labels)
    ∧ ((sampleServices.map Service.Name).Nodup → mergeServices sampleServices = sampleServices) :=
  C1_merge_services sampleServices (List.cons_ne_nil _ _)

/-- C5: every `CreateService` request with an empty ID (buildID) or an
empty service name is rejected as a validation failure before any Storage
backend call is made (no Service value reaches storage), so nothing is
persisted. -/
theorem C5_create_service_validation (req : CreateServiceRequest)
    (h : req.ID = "" ∨ req.Service = "") :
    ∃ e, createServicePipeline req = Except.error e := by
  have hv : ∃ e, req.Validate = Except.error e := by
    unfold CreateServiceRequest.Validate
    rcases h with h | h
    · simp [h]
    · by_cases hid : req.ID = "" <;> simp [h, hid]
  obtain ⟨e, he⟩ := hv
  exact ⟨e, by simp [createServicePipeline, he]⟩

theorem C5_create_service_validation_witness :
    ∃ e, createServicePipeline ⟨"", "svc", ∅⟩ = Except.error e :=
  C5_create_service_validation ⟨"", "svc", ∅⟩ (Or.inl rfl)

/-- C4: every `CreateProfile` request with an empty ID (buildID), an empty
token, or type `unknown` is rejected as a validation failure before the
profile payload is decoded (the outcome does not depend on the payload's
parse result) and before any Storage backend call is made (the result is
an error, so no profile reaches storage). -/
theorem C4_create_profile_validation (req : CreateProfileRequest)
    (h : req.ID = "" ∨ req.Token = "" ∨ req.Typ = UnknownProfile) :
    ∀ parseRes, (∃ e, createProfilePipeline req parseRes = Except.error e)
      ∧ ∀ parseRes2, createProfilePipeline req parseRes = createProfilePipeline req parseRes2 := by
  have hv : ∃ e, req.Validate = Except.error e := by
    unfold CreateProfileRequest.Validate
    rcases h with h | h | h
    · simp [h]
    · by_cases hid : req.ID = "" <;> simp [h, hid]
    · by_cases hid : req.ID = ""
      · simp [hid]
      · by_cases htok : req.Token = "" <;> simp [h, hid, htok]
  obtain ⟨e, he⟩ := hv
  intro parseRes
  exact ⟨⟨e, by simp [createProfilePipeline, he]⟩,
    fun parseRes2 => by simp [createProfilePipeline, he]⟩

theorem C4_create_profile_validation_witness :
    (∃ e, createProfilePipeline ⟨"", "tok", CPUProfile⟩ (Except.ok []) = Except.error e)
    ∧ ∀ parseRes2, createProfilePipeline ⟨"", "tok", CPUProfile⟩ (Except.ok [])
        = createProfilePipeline ⟨"", "tok", CPUProfile⟩ parseRes2 :=
  C4_create_profile_validation ⟨"", "tok", CPUProfile⟩ (Or.inl rfl) (Except.ok [])

/-- C6: a `CreateProfile` call whose byte stream fails to parse returns
the error wrapped as a decode failure, with no Storage call (the result
is an error, and by the second equation `storage.CreateProfile` is
invoked exactly when the parse succeeded, with the parsed payload). -/
theorem C6_decode_failure_no_storage :
    (∀ (req : CreateProfileRequest) (e : String),
        Repository.CreateProfile req (Except.error e)
          = Except.error ("could not parse profile: " ++ e))
    ∧ ∀ (req : CreateProfileRequest) (pp : PProf),
        Repository.CreateProfile req (Except.ok pp) = Except.ok (profileRecord req, pp) :=
  ⟨fun _ _ => rfl, fun _ _ => rfl⟩

/-- C3: every `GetProfiles`/`GetProfile` request with an empty service
name, or type `unknown`, or a zero from/to timestamp, or from > to, is
rejected as a validation failure before any Storage backend call is made
(no filter is handed to storage); each condition is independently
sufficient. -/
theorem C3_get_profiles_validation (req : GetProfilesRequest)
    (h : req.Service = "" ∨ req.Typ = UnknownProfile ∨ req.From.IsZero = true
        ∨ req.To.IsZero = true ∨ req.To.Before req.From = true) :
    ∃ e, getProfilesPipeline req = Except.error e := by
  have hv : ∃ e, req.Validate = Except.error e := by
    unfold GetProfilesRequest.Validate
    by_cases h1 : req.Service = ""
    · simp [h1]
    · by_cases h2 : req.Typ = UnknownProfile
      · simp [h1, h2]
      · by_cases h3 : (req.From.IsZero || req.To.IsZero) = true
        · simp [h1, h2, h3]
        · by_cases h4 : req.To.Before req.From = true
          · simp [h1, h2, h3, h4]
          · exfalso
            simp only [Bool.or_eq_true, not_or] at h3
            rcases h with h | h | h | h | h <;> simp_all
  obtain ⟨e, he⟩ := hv
  exact ⟨e, by simp [getProfilesPipeline, he]⟩

theorem C3_get_profiles_validation_witness :
    ∃ e, getProfilesPipeline ⟨"", CPUProfile, ⟨1⟩, ⟨2⟩, ∅, 0⟩ = Except.error e :=
  C3_get_profiles_validation ⟨"", CPUProfile, ⟨1⟩, ⟨2⟩, ∅, 0⟩ (Or.inl rfl)

/-- C10: two `GetProfiles` (or `GetProfile`) requests that differ only in
their `Limit` field produce the identical `GetProfileFilter`, and the
Repository hands that same filter to any storage backend, so `Limit` has
no effect on the Repository's behaviour or results. -/
theorem C10_limit_noninterference (r₁ r₂ : GetProfilesRequest)
    (hs : r₁.Service = r₂.Service) (ht : r₁.Typ = r₂.Typ) (hf : r₁.From = r₂.From)
    (hto : r₁.To = r₂.To) (hl : r₁.Labels = r₂.Labels) :
    profilesFilter r₁ = profilesFilter r₂
    ∧ (∀ {α : Type} (storage : GetProfileFilter → α),
        Repository.GetProfiles storage r₁ = Repository.GetProfiles storage r₂)
    ∧ (∀ {α : Type} (storage : GetProfileFilter → α),
        Repository.GetProfile storage r₁ = Repository.GetProfile storage r₂) := by
  have hfil : profilesFilter r₁ = profilesFilter r₂ := by
    simp [profilesFilter, hs, ht, hf, hto, hl]
  exact ⟨hfil, fun storage => by simp [Repository.GetProfiles, hfil],
    fun storage => by simp [Repository.GetProfile, hfil]⟩

theorem writeProfilesLoop_ok (service : String) (ptype : ProfileType) (ds : List PProf) :
    ∀ (n : Nat) (acc : List ZipEvent),
      writeProfilesLoop service ptype n (ds.map okProfile) acc
        = (acc ++ specEntries service ptype n ds ++ [ZipEvent.trailer], Except.ok ()) := by
  induction ds with
  | nil => intro n acc; simp [writeProfilesLoop, specEntries]
  | cons d rest ih =>
    intro n acc
    rw [List.map_cons]
    rw [show (okProfile d :: rest.map okProfile) = okProfile d :: rest.map okProfile from rfl]
    simp only [writeProfilesLoop, okProfile]
    rw [ih (n + 1) (acc ++ [ZipEvent.header (entryName service ptype (n + 1)), ZipEvent.data d])]
    simp [specEntries, List.append_assoc]

theorem writeProfilesLoop_createErr (service : String) (ptype : ProfileType)
    (ds : List PProf) (e : String) (w : Except String PProf) (rest : List ExportProfile) :
    ∀ (n : Nat) (acc : List ZipEvent),
      writeProfilesLoop service ptype n
          (ds.map okProfile ++ { createRes := Except.error e, writeRes := w } :: rest) acc
        = (acc ++ specEntries service ptype n ds,
           Except.error ("could not add file " ++ entryName service ptype (n + ds.length + 1)
             ++ " to zip: " ++ e)) := by
  induction ds with
  | nil =>
    intro n acc
    simp [writeProfilesLoop, specEntries]
  | cons d rest' ih =>
    intro n acc
    simp only [List.map_cons, List.cons_append, writeProfilesLoop, okProfile,
      List.append_eq]
    rw [ih (n + 1) (acc ++ [ZipEvent.header (entryName service ptype (n + 1)), ZipEvent.data d])]
    have harith : n + 1 + rest'.length + 1 = n + (rest'.length + 1) + 1 := by omega
    simp [specEntries, List.append_assoc, harith]

theorem writeProfilesLoop_writeErr (service : String) (ptype : ProfileType)
    (ds : List PProf) (e : String) (rest : List ExportProfile) :
    ∀ (n : Nat) (acc : List ZipEvent),
      writeProfilesLoop service ptype n
          (ds.map okProfile
            ++ { createRes := Except.ok (), writeRes := Except.error e } :: rest) acc
        = (acc ++ specEntries service ptype n ds
             ++ [ZipEvent.header (entryName service ptype (n + ds.length + 1))],
           Except.error e) := by
  induction ds with
  | nil =>
    intro n acc
    simp [writeProfilesLoop, specEntries]
  | cons d rest' ih =>
    intro n acc
    simp only [List.map_cons, List.cons_append, writeProfilesLoop, okProfile,
      List.append_eq]
    rw [ih (n + 1) (acc ++ [ZipEvent.header (entryName service ptype (n + 1)), ZipEvent.data d])]
    have harith : n + 1 + rest'.length + 1 = n + (rest'.length + 1) + 1 := by omega
    simp [specEntries, List.append_assoc, harith]

/-- C2: for every successful `GetProfiles` result, `GetProfilesTo` writes
one zip entry per profile named `<service>-<type>-<NNNN>.prof` with
`NNNN` the 1-based, 4-digit zero-padded index in result order, and
writes the archive trailer on success (first conjunct); if `zw.Create`
fails for an entry, the wrapped error is returned without finalizing,
leaving exactly the already-written entries in the stream (second
conjunct); if writing an entry's contents fails, that error is returned
without finalizing, after that entry's header (third conjunct); and
concretely two `cpu` profiles for service `"svc"` yield entries
`svc-cpu-0001.prof` and `svc-cpu-0002.prof` in result order (fourth
conjunct). -/
theorem C2_get_profiles_to_export :
    (∀ (req : GetProfilesRequest) (ds : List PProf),
        Repository.GetProfilesTo req (Except.ok (ds.map okProfile))
          = (specEntries req.Service req.Typ 0 ds ++ [ZipEvent.trailer], Except.ok ()))
    ∧ (∀ (req : GetProfilesRequest) (ds : List PProf) (e : String)
          (w : Except String PProf) (rest : List ExportProfile),
        Repository.GetProfilesTo req
            (Except.ok (ds.map okProfile
              ++ { createRes := Except.error e, writeRes := w } :: rest))
          = (specEntries req.Service req.Typ 0 ds,
             Except.error ("could not add file " ++ entryName req.Service req.Typ (ds.length + 1)
               ++ " to zip: " ++ e)))
    ∧ (∀ (req : GetProfilesRequest) (ds : List PProf) (e : String) (rest : List ExportProfile),
        Repository.GetProfilesTo req
            (Except.ok (ds.map okProfile
              ++ { createRes := Except.ok (), writeRes := Except.error e } :: rest))
          = (specEntries req.Service req.Typ 0 ds
               ++ [ZipEvent.header (entryName req.Service req.Typ (ds.length + 1))],
             Except.error e))
    ∧ (∀ d₁ d₂ : PProf,
        Repository.GetProfilesTo
            { Service := "svc", Typ := CPUProfile, From := ⟨1⟩, To := ⟨2⟩, Labels := ∅, Limit := 0 }
            (Except.ok [okProfile d₁, okProfile d₂])
          = ([ZipEvent.header "svc-cpu-0001.prof", ZipEvent.data d₁,
              ZipEvent.header "svc-cpu-0002.prof", ZipEvent.data d₂, ZipEvent.trailer],
             Except.ok ())) := by
  have hok : ∀ (req : GetProfilesRequest) (ds : List PProf),
      Repository.GetProfilesTo req (Except.ok (ds.map okProfile))
        = (specEntries req.Service req.Typ 0 ds ++ [ZipEvent.trailer], Except.ok ()) := by
    intro req ds
    show writeProfilesLoop req.Service req.Typ 0 (ds.map okProfile) [] = _
    rw [writeProfilesLoop_ok req.Service req.Typ ds 0 []]
    simp
  refine ⟨hok, ?_, ?_, ?_⟩
  · intro req ds e w rest
    show writeProfilesLoop req.Service req.Typ 0 _ [] = _
    rw [writeProfilesLoop_createErr req.Service req.Typ ds e w rest 0 []]
    simp
  · intro req ds e rest
    show writeProfilesLoop req.Service req.Typ 0 _ [] = _
    rw [writeProfilesLoop_writeErr req.Service req.Typ ds e rest 0 []]
    simp
  · intro d₁ d₂
    have h12 : [okProfile d₁, okProfile d₂] = [d₁, d₂].map okProfile := rfl
    rw [h12, hok]
    have h1 : entryName "svc" CPUProfile 1 = "svc-cpu-0001.prof" := by decide
    have h2 : entryName "svc" CPUProfile 2 = "svc-cpu-0002.prof" := by decide
    simp [specEntries, h1, h2]

theorem C10_limit_noninterference_witness :
    profilesFilter ⟨"svc", CPUProfile, ⟨1⟩, ⟨2⟩, ∅, 10⟩
        = profilesFilter ⟨"svc", CPUProfile, ⟨1⟩, ⟨2⟩, ∅, 99⟩
    ∧ (∀ {α : Type} (storage : GetProfileFilter → α),
        Repository.GetProfiles storage ⟨"svc", CPUProfile, ⟨1⟩, ⟨2⟩, ∅, 10⟩
          = Repository.GetProfiles storage ⟨"svc", CPUProfile, ⟨1⟩, ⟨2⟩, ∅, 99⟩)
    ∧ (∀ {α : Type} (storage : GetProfileFilter → α),
        Repository.GetProfile storage ⟨"svc", CPUProfile, ⟨1⟩, ⟨2⟩, ∅, 10⟩
          = Repository.GetProfile storage ⟨"svc", CPUProfile, ⟨1⟩, ⟨2⟩, ∅, 99⟩) :=
  C10_limit_noninterference _ _ rfl rfl rfl rfl rfl

end Profefe
